import Mathlib

/-!
Verification development for the SwarmGo agent runtime.

This file gives a shallow embedding of the parts of the Go sources that the
checked properties are about: the per-vendor CLI parsers
(`internal/agents/cli.go`, `agentrunner/cli_claude.go`,
`agentrunner/cli_copilot.go`, and the `agentrunner` codex/gemini files),
the orchestrator's vendor-partition rule
(`internal/orchestrator/orchestrator.go`), the agent runtime's event
emission and start sequence (`internal/agents/agent.go` and the
`agentrunner` agent file), and the signal collector's log scan
(`internal/supervisor/coded.go`).

Go strings are modelled as Lean `String` (sequences of characters; the
byte/rune distinction does not matter for the properties below, which is
noted where relevant).  Go slices become Lean lists, `nil` slices become
`[]`.  `json.Unmarshal` into `map[string]any` is modelled by passing the
decoded document (or `none` for a decode error) alongside the raw line;
JSON documents are the inductive `Jval` and decoded objects are
association lists with unique keys, mirroring Go's `map[string]any`.
-/

namespace SwarmGo

/-- Go `unicode.IsSpace` restricted to the characters that can occur in the
inputs considered here (ASCII whitespace plus NEL and NBSP, exactly the
Latin-1 portion of Go's table). -/
def goIsSpace (c : Char) : Bool :=
  c = ' ' || c = '\t' || c = '\n' || c = '\x0b' || c = '\x0c' || c = '\r' ||
  c = '\x85' || c = '\xa0'

/-- Characters trimmed by `strings.TrimRight(line, " \t")` in
`trimTrailingWhitespacePerLine`. -/
def isSpaceOrTab (c : Char) : Bool := c = ' ' || c = '\t'

/-- Drop leading and trailing whitespace from a character list. -/
def trimCharsBoth (l : List Char) : List Char :=
  ((l.dropWhile goIsSpace).reverse.dropWhile goIsSpace).reverse

/-- Go `strings.TrimSpace`. -/
def trimSpace (s : String) : String := ⟨trimCharsBoth s.data⟩

/-- Go `strings.TrimRight(s, " \t")`. -/
def trimRightSpaceTab (s : String) : String :=
  ⟨(s.data.reverse.dropWhile isSpaceOrTab).reverse⟩

/-- Go `strings.HasPrefix`: the first `len(pre)` characters of `s` equal
`pre`. -/
def goHasPrefix (s pre : String) : Bool :=
  s.data.take pre.data.length == pre.data

/-- Go `strings.ToLower` on the ASCII range (the only case-carrying
characters in the inputs considered). -/
def goToLower (s : String) : String := ⟨s.data.map Char.toLower⟩

/-- Split a string on a separator character, Go `strings.Split(s, sep)` for
a one-character separator. -/
def splitOnChar (sep : Char) (s : String) : List String :=
  (s.data.splitOn sep).map fun l => ⟨l⟩

/-- Go `strings.Join(parts, sep)` for a one-character separator. -/
def joinWithChar (sep : Char) : List String → String
  | [] => ""
  | [s] => s
  | s :: rest => s ++ ⟨[sep]⟩ ++ joinWithChar sep rest

/-- `trimLines` from the agentrunner sources: `strings.TrimSpace` applied to
every newline-separated line, re-joined with newlines. -/
def trimLines (s : String) : String :=
  joinWithChar '\n' ((splitOnChar '\n' s).map trimSpace)

/-- `trimTrailingWhitespacePerLine` from `agentrunner/cli_claude.go`:
`strings.TrimRight(line, " \t")` applied per newline-separated line. -/
def trimTrailingWhitespacePerLine (s : String) : String :=
  joinWithChar '\n' ((splitOnChar '\n' s).map trimRightSpaceTab)

/-! ### ANSI escape stripping (agentrunner `stripANSI`)

The agentrunner `ansiRegexp` is: ESC, an open bracket, any number of
parameter characters (digits, semicolon, question mark), any number of
intermediate characters (0x20 through 0x2f), then one final character
(0x40 through 0x7e).  The three character classes are pairwise disjoint,
so the regex engine's greedy scan is the unique way to match at a
position, and `ReplaceAllString` is the left-to-right scan below. -/

def isAnsiParam (c : Char) : Bool := c.isDigit || c = ';' || c = '?'

def isAnsiIntermediate (c : Char) : Bool := 0x20 ≤ c.toNat && c.toNat ≤ 0x2f

def isAnsiFinal (c : Char) : Bool := 0x40 ≤ c.toNat && c.toNat ≤ 0x7e

/-- Try to match `ansiRegexp` at the head of the list; on success return the
remainder after the match. -/
def ansiMatch : List Char → Option (List Char)
  | '\x1b' :: '[' :: rest =>
    let rest₁ := rest.dropWhile isAnsiParam
    let rest₂ := rest₁.dropWhile isAnsiIntermediate
    match rest₂ with
    | c :: rest₃ => if isAnsiFinal c then some rest₃ else none
    | [] => none
  | _ => none

/-- Left-to-right replacement scan of `ansiRegexp` matches, fuelled by the
input length (every match consumes at least one character). -/
def stripAnsiChars : Nat → List Char → List Char
  | 0, l => l
  | _ + 1, [] => []
  | fuel + 1, c :: rest =>
    match ansiMatch (c :: rest) with
    | some rest' => stripAnsiChars fuel rest'
    | none => c :: stripAnsiChars fuel rest

/-- agentrunner `stripANSI`: return the input unchanged when it contains no
ESC byte, otherwise erase every `ansiRegexp` match. -/
def stripANSI (s : String) : String :=
  if s.data.contains '\x1b' then ⟨stripAnsiChars s.data.length s.data⟩ else s

/-! ### Message model -/

/-- `MessageKind`: `say` is `MessageSay`, `act` is `MessageDo`, `see` is
`MessageSee` (`do` is a Lean keyword). -/
inductive MessageKind where
  | say
  | act
  | see
  deriving DecidableEq, Repr

/-- `ParsedMessage` from the agent packages. -/
structure ParsedMessage where
  kind : MessageKind
  text : String
  deriving DecidableEq, Repr

/-! ### Codex parsers

The repository holds two generations of the Codex parser.  The first
(`internal/agents/cli.go`, stateless `codexCLI`) maps tag lines to fixed
messages and everything else to `SAY` with the raw line.  The second
(`agentrunner`, `codexCLI` with a `doMode` boolean) strips ANSI escapes,
classifies by prefix and forces `DO` while `doMode` holds. -/

/-- First-generation `codexCLI.Parse` (stateless, `internal/agents/cli.go`). -/
def codexParseV1 (line : String) : List ParsedMessage :=
  if trimSpace line = "" then []
  else
    let trim := trimSpace line
    if trim = "thinking" then [⟨.say, "[thinking]"⟩]
    else if trim = "exec" then [⟨.act, "[exec]"⟩]
    else [⟨.say, line⟩]

/-- First-generation parser applied to a sequence of lines. -/
def codexRunV1 (lines : List String) : List ParsedMessage :=
  (lines.map codexParseV1).flatten

/-- `codexClassify` from the agentrunner codex file: prefix-based
classification of a trimmed line. -/
def codexClassify (trim : String) : MessageKind :=
  let lower := goToLower trim
  if goHasPrefix trim "$ " then .act
  else if goHasPrefix lower "stdout:" then .see
  else if goHasPrefix lower "stderr:" then .see
  else if goHasPrefix lower "exit code" then .see
  else if goHasPrefix lower "result:" then .see
  else if goHasPrefix lower "output:" then .see
  else .say

/-- Second-generation `codexCLI.Parse` (agentrunner): takes the `doMode`
state, returns the new state and the messages for one line. -/
def codexParse (doMode : Bool) (line : String) : Bool × List ParsedMessage :=
  if trimSpace line = "" then (doMode, [])
  else
    let clean := stripANSI line
    let trim := trimSpace clean
    if trim = "thinking" then (false, [⟨.say, "[thinking]"⟩])
    else if trim = "exec" then (true, [⟨.act, "[exec]"⟩])
    else
      let kind := codexClassify trim
      let kind := if doMode then .act else kind
      (doMode, [⟨kind, clean⟩])

/-- Second-generation parser run over a sequence of lines from a given
`doMode` state, concatenating the per-line messages. -/
def codexRunFrom (doMode : Bool) : List String → List ParsedMessage
  | [] => []
  | l :: ls =>
    let step := codexParse doMode l
    step.2 ++ codexRunFrom step.1 ls

/-! ### JSON documents

`json.Unmarshal` into `map[string]any` yields nested `map[string]any`,
`[]any`, `string`, `float64`, `bool` and `nil` values.  `Jval` mirrors that
shape; objects are association lists with pairwise distinct keys (Go maps
cannot hold duplicates), numbers carry no payload because none of the
embedded functions reads a numeric value. -/

inductive Jval where
  | str (s : String)
  | num
  | boolean (b : Bool)
  | null
  | arr (xs : List Jval)
  | obj (fields : List (String × Jval))

/-- Go map lookup `m[key]` on a decoded object. -/
def jGet (fields : List (String × Jval)) (key : String) : Option Jval :=
  match fields with
  | [] => none
  | (k, v) :: rest => if k = key then some v else jGet rest key

/-- Go type assertion `v.(string)`: the string when the value is a string,
`none` (failed assertion) otherwise. -/
def jStr : Option Jval → Option String
  | some (.str s) => some s
  | _ => none

/-- Go type assertion `v.(map[string]any)`. -/
def jObj : Option Jval → Option (List (String × Jval))
  | some (.obj f) => some f
  | _ => none

/-- Go type assertion `v.([]any)`. -/
def jArr : Option Jval → Option (List Jval)
  | some (.arr xs) => some xs
  | _ => none

/-- Go `s, _ := m[key].(string)`: the string, or the zero value `""`. -/
def jGetStr (fields : List (String × Jval)) (key : String) : String :=
  (jStr (jGet fields key)).getD ""

/-! ### Claude parser (Vendor C)

Two generations exist: `agentrunner/cli_claude.go` (suffix `A`) and the
first `claudeCLI` in `internal/agents/cli.go` (suffix `I`).  Both
`Parse` functions first run `json.Unmarshal`; the decode result is the
`root` argument here (`none` = decode error). -/

/-- `summarizeClaudeTool` from `agentrunner/cli_claude.go`. -/
def summarizeClaudeToolA (name : String) (input : List (String × Jval)) : String :=
  if name = "" then "Unknown tool"
  else if name = "Bash" then
    match jStr (jGet input "command") with
    | some cmd => "$ " ++ cmd
    | none => name
  else if name = "Read" ∨ name = "Write" ∨ name = "Edit" then
    match jStr (jGet input "file_path") with
    | some path => goToLower name ++ ": " ++ path
    | none => name
  else if name = "Glob" ∨ name = "Grep" then
    match jStr (jGet input "pattern") with
    | some pattern => goToLower name ++ ": " ++ pattern
    | none => name
  else name

/-- `summarizeClaudeTool` from `internal/agents/cli.go` (first copy); it
differs from the agentrunner one only in the empty-name fallback text. -/
def summarizeClaudeToolI (name : String) (input : List (String × Jval)) : String :=
  if name = "" then "tool"
  else if name = "Bash" then
    match jStr (jGet input "command") with
    | some cmd => "$ " ++ cmd
    | none => name
  else if name = "Read" ∨ name = "Write" ∨ name = "Edit" then
    match jStr (jGet input "file_path") with
    | some path => goToLower name ++ ": " ++ path
    | none => name
  else if name = "Glob" ∨ name = "Grep" then
    match jStr (jGet input "pattern") with
    | some pattern => goToLower name ++ ": " ++ pattern
    | none => name
  else name

/-- `parseClaudeAssistant` from `agentrunner/cli_claude.go`: walk
`message.content`, collecting SAY for non-blank text items (right-trimmed
per line) and DO for tool_use items. -/
def parseClaudeAssistantA (root : List (String × Jval)) : List ParsedMessage :=
  match jObj (jGet root "message") with
  | none => []
  | some msg =>
    match jArr (jGet msg "content") with
    | none => []
    | some content =>
      content.foldl (fun out item =>
        match item with
        | .obj obj =>
          match jStr (jGet obj "type") with
          | some t =>
            if t = "text" then
              match jStr (jGet obj "text") with
              | some text =>
                let trimmed := trimTrailingWhitespacePerLine text
                if trimSpace trimmed = "" then out
                else out ++ [⟨.say, trimmed⟩]
              | none => out
            else if t = "tool_use" then
              let name := jGetStr obj "name"
              let input := (jObj (jGet obj "input")).getD []
              out ++ [⟨.act, summarizeClaudeToolA name input⟩]
            else out
          | none => out
        | _ => out) []

/-- `parseClaudeToolResult` from `agentrunner/cli_claude.go`: SEE for a
non-blank `tool_use_result.stdout`, then SEE for a non-blank stderr. -/
def parseClaudeToolResultA (root : List (String × Jval)) : List ParsedMessage :=
  match jObj (jGet root "tool_use_result") with
  | none => []
  | some result =>
    let fromStdout :=
      match jStr (jGet result "stdout") with
      | some s => if trimSpace s = "" then [] else [(⟨.see, trimSpace s⟩ : ParsedMessage)]
      | none => []
    let fromStderr :=
      match jStr (jGet result "stderr") with
      | some s => if trimSpace s = "" then [] else [(⟨.see, trimSpace s⟩ : ParsedMessage)]
      | none => []
    fromStdout ++ fromStderr

/-- `claudeCLI.Parse` from `agentrunner/cli_claude.go`.  `root` is the
`json.Unmarshal` result for `line` (`none` = malformed JSON).  Unknown
record types fall through to `return nil`. -/
def claudeParseA (line : String) (root : Option (List (String × Jval))) :
    List ParsedMessage :=
  if trimSpace line = "" then []
  else
    match root with
    | none => [⟨.say, line⟩]
    | some r =>
      let typ := jGetStr r "type"
      if typ = "assistant" then parseClaudeAssistantA r
      else if typ = "user" then parseClaudeToolResultA r
      else if typ = "result" then
        match jStr (jGet r "result") with
        | some result => if trimSpace result = "" then [] else [⟨.say, result⟩]
        | none => []
      else []

/-- The first `claudeCLI.Parse` in `internal/agents/cli.go`.  It requires a
leading brace before attempting the decode, and every path that does not
produce structured messages falls through to `SAY` with the raw line. -/
def claudeParseI (line : String) (root : Option (List (String × Jval))) :
    List ParsedMessage :=
  let trim := trimSpace line
  if trim = "" then []
  else if ¬ goHasPrefix trim "\x7b" then [⟨.say, line⟩]
  else
    match root with
    | none => [⟨.say, line⟩]
    | some r =>
      let typ := jGetStr r "type"
      if typ = "assistant" then
        let msg := (jObj (jGet r "message")).getD []
        let content := (jArr (jGet msg "content")).getD []
        content.foldl (fun out item =>
          match item with
          | .obj obj =>
            match jStr (jGet obj "type") with
            | some t =>
              if t = "text" then
                match jStr (jGet obj "text") with
                | some text =>
                  if trimSpace text = "" then out
                  else out ++ [⟨.say, trimLines text⟩]
                | none => out
              else if t = "tool_use" then
                let name := jGetStr obj "name"
                let input := (jObj (jGet obj "input")).getD []
                out ++ [⟨.act, summarizeClaudeToolI name input⟩]
              else out
            | none => out
          | _ => out) []
      else if typ = "user" then
        let toolResult := (jObj (jGet r "tool_use_result")).getD []
        let stdoutHit :=
          match jStr (jGet toolResult "stdout") with
          | some s => if trimSpace s = "" then none else some (trimSpace s)
          | none => none
        match stdoutHit with
        | some t => [⟨.see, t⟩]
        | none =>
          let stderrHit :=
            match jStr (jGet toolResult "stderr") with
            | some s => if trimSpace s = "" then none else some (trimSpace s)
            | none => none
          match stderrHit with
          | some t => [⟨.see, t⟩]
          | none => [⟨.say, line⟩]
      else if typ = "result" then
        match jStr (jGet r "result") with
        | some result =>
          if trimSpace result = "" then [⟨.say, line⟩]
          else [⟨.say, trimLines result⟩]
        | none => [⟨.say, line⟩]
      else [⟨.say, line⟩]

/-! ### Copilot parser and BuildArgs family -/

/-- `copilotCLI.Parse` (identical in both packages): every non-blank line is
one SAY with the raw line. -/
def copilotParse (line : String) : List ParsedMessage :=
  if trimSpace line = "" then [] else [⟨.say, line⟩]

/-- `codexCLI.BuildArgs` (identical in both packages). -/
def codexBuildArgs (prompt model : String) : List String :=
  let args := ["exec", prompt, "--skip-git-repo-check",
    "--dangerously-bypass-approvals-and-sandbox"]
  if model ≠ "" then args ++ ["--model", model] else args

/-- `claudeCLI.BuildArgs` (identical in both packages); the prompt goes to
stdin, not argv. -/
def claudeBuildArgs (_prompt model : String) : List String :=
  let args := ["-p", "--dangerously-skip-permissions", "--tools", "default",
    "--output-format", "stream-json", "--verbose"]
  if model ≠ "" then args ++ ["--model", model] else args

/-- `copilotCLI.BuildArgs` (identical in both packages): an empty model is
replaced by the default `gpt-5` and `--model` is always passed. -/
def copilotBuildArgs (prompt model : String) : List String :=
  let model := if model = "" then "gpt-5" else model
  ["-p", prompt, "--allow-all-tools", "--allow-all-paths", "--stream", "on",
    "--model", model]

/-- `geminiCLI.BuildArgs` from the agentrunner package (also the second copy
in `internal/agents/cli.go`): `--model` only when the model is non-empty. -/
def geminiBuildArgsA (prompt model : String) : List String :=
  let args := [prompt, "--yolo", "--output-format", "stream-json"]
  if model ≠ "" then args ++ ["--model", model] else args

/-- `geminiCLI.BuildArgs` from the first copy in `internal/agents/cli.go`:
an empty model is replaced by the default and `--model` is always passed. -/
def geminiBuildArgsI (prompt model : String) : List String :=
  let model := if model = "" then "gemini-2.0-flash-exp" else model
  [prompt, "--yolo", "--output-format", "stream-json", "--model", model]

/-! ### Orchestrator vendor partition -/

inductive AgentType where
  | claude
  | codex
  | copilot
  | gemini
  deriving DecidableEq, Repr

/-- The worker-count options consumed by `agentTypeForIndex`
(`config.Options`; the counts are the non-negative flag values). -/
structure Options where
  claudeWorkers : Nat
  codexWorkers : Nat
  copilotWorkers : Nat
  geminiWorkers : Nat
  deriving DecidableEq, Repr

/-- `Orchestrator.agentTypeForIndex` from
`internal/orchestrator/orchestrator.go`.  Note the third bound in the
source is `ClaudeWorkers + CopilotWorkers`, without `CodexWorkers`. -/
def agentTypeForIndex (o : Options) (index : Nat) : AgentType :=
  if index < o.claudeWorkers then .claude
  else if index < o.claudeWorkers + o.codexWorkers then .codex
  else if index < o.claudeWorkers + o.copilotWorkers then .copilot
  else .gemini

/-! ### Event emission disciplines

`internal/agents/agent.go` has a single `emit` used for every event of the
agent runtime; its body is one `select` with a `default` branch, i.e. a
non-blocking send that drops the event when the channel is full.  The
agentrunner agent file also has a single `emit` used for every event; its
body is a plain channel send (blocking) guarded by a panic recovery.  The
orchestrator's `emit` is again a non-blocking `select`/`default`. -/

inductive EventTag where
  | agentAdded
  | agentStopped
  | agentLine
  | statusMessage
  | phaseChanged
  | remainingTime
  | todoLoaded
  deriving DecidableEq, Repr

inductive SendMode where
  | blocking
  | nonBlocking
  deriving DecidableEq, Repr

/-- Send mode used by `Agent.emit` in `internal/agents/agent.go` for a given
event: the one `select`/`default` covers every event. -/
def internalEmitMode (_ : EventTag) : SendMode := .nonBlocking

/-- Send mode used by `Agent.emit` in the agentrunner agent file for a given
event: the one plain channel send covers every event. -/
def agentrunnerEmitMode (_ : EventTag) : SendMode := .blocking

/-- Send mode used by `Orchestrator.emit` for its status notifications. -/
def orchestratorEmitMode (_ : EventTag) : SendMode := .nonBlocking

/-- Effect of the internal runtime's non-blocking send on a bounded channel
buffer: append when there is room, drop the event otherwise. -/
def emitInternal (cap : Nat) (buf : List EventTag) (ev : EventTag) :
    List EventTag :=
  if buf.length < cap then buf ++ [ev] else buf

/-- Effect of the agentrunner runtime's blocking send once it proceeds (the
channel being open): the event is always delivered. -/
def emitAgentrunner (buf : List EventTag) (ev : EventTag) : List EventTag :=
  buf ++ [ev]

/-! ### Start sequences

The program order of the observable steps of `Agent.Start`, read off the
two sources statement by statement.  In `internal/agents/agent.go` the tail
goroutine is launched right after the log headers are written and before
the child is started and `AgentAdded` is emitted; in the agentrunner file
the tail goroutine is launched only after `AgentAdded` has been emitted. -/

inductive StartStep where
  | ensureLogDir
  | openLog
  | writeHeaders
  | buildArgv
  | startTail
  | wireStdin
  | wirePipes
  | startChild
  | emitAdded
  | startStreams
  | startWait
  deriving DecidableEq, Repr

/-- Step order of `Agent.Start` in `internal/agents/agent.go`. -/
def internalStartSteps : List StartStep :=
  [.ensureLogDir, .openLog, .writeHeaders, .buildArgv, .startTail,
   .wireStdin, .wirePipes, .startChild, .emitAdded, .startStreams, .startWait]

/-- Step order of `Agent.Start` in the agentrunner agent file. -/
def agentrunnerStartSteps : List StartStep :=
  [.ensureLogDir, .openLog, .writeHeaders, .buildArgv, .wireStdin,
   .wirePipes, .startChild, .emitAdded, .startTail, .startStreams, .startWait]

/-! ### Signal collector (internal/supervisor/coded.go)

`collectLogs` scans the new log region line by line; every parsed message
whose (truncated) text matches the pass regex, else the fail regex, becomes
a `logEvent`, and after each contributing line the history is capped to the
50 most recent events.  The two regexes are case-insensitive word-bounded
alternations; `matchesToken` below implements word-bounded occurrence of
one alternative (all alternatives start and end with word characters, so a
regex word boundary is exactly "adjacent character absent or non-word"),
and the optional groups `pass(ed)?` and `test[s]? failed` are expanded into
their two instances. -/

structure LogEvent where
  timestamp : Nat
  kind : String
  message : String
  deriving DecidableEq, Repr

def maxLogEvents : Nat := 50

/-- `trimLine` from coded.go: truncate a message to 500 characters. -/
def trimLine (line : String) : String :=
  if line.length ≤ 500 then line else ⟨line.data.take 500⟩

/-- Regex `\w`: ASCII letters, digits, underscore. -/
def isWordChar (c : Char) : Bool := c.isAlphanum || c = '_'

/-- Case-insensitive occurrence of `tok` in `text` starting at `i`, with
word boundaries on both sides (`tok` is given lowercase). -/
def matchesTokenAt (text tok : List Char) (i : Nat) : Bool :=
  ((text.drop i).take tok.length).map Char.toLower == tok &&
  (i == 0 || !isWordChar (text.getD (i - 1) ' ')) &&
  !isWordChar (text.getD (i + tok.length) ' ')

/-- Word-bounded case-insensitive search for one alternative. -/
def matchesToken (s : String) (tok : String) : Bool :=
  (List.range (s.data.length + 1)).any fun i => matchesTokenAt s.data tok.data i

/-- Alternatives of `passRegex`, lowercased, optional groups expanded. -/
def passTokens : List String :=
  ["pass", "passed", "success", "succeeded", "ok", "all tests passed",
   "tests passed"]

/-- Alternatives of `failRegex`, lowercased, optional groups expanded. -/
def failTokens : List String :=
  ["fail", "failed", "error", "exception", "traceback", "stacktrace",
   "panic", "assert", "test failed", "tests failed"]

def passRegexMatches (s : String) : Bool := passTokens.any (matchesToken s)

def failRegexMatches (s : String) : Bool := failTokens.any (matchesToken s)

/-- The `switch` in `collectLogs`: pass regex first, then fail regex, else
no event. -/
def classifyLogKind (text : String) : Option String :=
  if passRegexMatches text then some "pass"
  else if failRegexMatches text then some "fail"
  else none

/-- One iteration of the message loop in `collectLogs`: truncate, classify,
append an event on a match. -/
def appendMatched (now : Nat) (logs : List LogEvent) (m : ParsedMessage) :
    List LogEvent :=
  let text := trimLine m.text
  match classifyLogKind text with
  | some k => logs ++ [⟨now, k, text⟩]
  | none => logs

/-- The sliding-window cap applied after each contributing line. -/
def capLogs (logs : List LogEvent) : List LogEvent :=
  if logs.length > maxLogEvents then logs.drop (logs.length - maxLogEvents)
  else logs

/-- One iteration of the line loop in `collectLogs`: skip blank lines and
lines whose parse is nil, otherwise process every message and cap. -/
def collectLine (parse : String → List ParsedMessage) (now : Nat)
    (logs : List LogEvent) (line : String) : List LogEvent :=
  let t := trimSpace line
  if t = "" then logs
  else
    let msgs := parse t
    if msgs.isEmpty then logs
    else capLogs (msgs.foldl (appendMatched now) logs)

/-- `collectLogs` over the lines of the newly read log region, for one
worker whose vendor parser is `parse`. -/
def collectLogs (parse : String → List ParsedMessage) (now : Nat)
    (logs : List LogEvent) (lines : List String) : List LogEvent :=
  lines.foldl (collectLine parse now) logs

/-- `lastEvent` from coded.go: the most recent event of the given kind. -/
def lastEvent (events : List LogEvent) (kind : String) : Option LogEvent :=
  events.reverse.find? fun e => e.kind == kind

/-- The per-worker `logs` object of the snapshot (`logSummary`), as built by
`buildSnapshot`: `recent` is a copy of the worker's history. -/
structure LogSummary where
  lastPass : Option LogEvent
  lastFail : Option LogEvent
  recent : List LogEvent
  deriving DecidableEq, Repr

def buildLogSummary (logs : List LogEvent) : LogSummary :=
  ⟨lastEvent logs "pass", lastEvent logs "fail", logs⟩

/-- The JSON line of Scenario A from the specification. -/
def scenarioALine : String :=
  "\x7b\"type\":\"assistant\",\"message\":\x7b\"content\":[\x7b\"type\":\"text\",\"text\":\"Reading config\"\x7d,\x7b\"type\":\"tool_use\",\"name\":\"Bash\",\"input\":\x7b\"command\":\"ls -la\"\x7d\x7d]\x7d\x7d"

/-- The decoded document of `scenarioALine` (result of `json.Unmarshal`). -/
def scenarioARoot : List (String × Jval) :=
  [("type", .str "assistant"),
   ("message", .obj [("content", .arr
     [.obj [("type", .str "text"), ("text", .str "Reading config")],
      .obj [("type", .str "tool_use"), ("name", .str "Bash"),
            ("input", .obj [("command", .str "ls -la")])]])])]

/-! ## Supporting lemmas -/

theorem trimLine_length_le (s : String) : (trimLine s).length ≤ 500 := by
  unfold trimLine
  split
  · assumption
  · show (s.data.take 500).length ≤ 500
    simp [List.length_take]

theorem trimLine_isPre (s : String) : (trimLine s).data <+: s.data := by
  unfold trimLine
  split
  · exact ⟨[], List.append_nil _⟩
  · exact ⟨s.data.drop 500, List.take_append_drop 500 s.data⟩

theorem capLogs_length_le (l : List LogEvent) :
    (capLogs l).length ≤ maxLogEvents := by
  unfold capLogs
  split
  · simp only [List.length_drop]
    omega
  · omega

theorem mem_capLogs (l : List LogEvent) (e : LogEvent)
    (h : e ∈ capLogs l) : e ∈ l := by
  unfold capLogs at h
  split at h
  · exact List.drop_subset _ l h
  · exact h

theorem mem_appendMatched (now : Nat) (logs : List LogEvent)
    (m : ParsedMessage) (e : LogEvent) (h : e ∈ appendMatched now logs m) :
    e ∈ logs ∨ e.message = trimLine m.text := by
  unfold appendMatched at h
  rcases hcl : classifyLogKind (trimLine m.text) with _ | k
  · simp only [hcl] at h
    exact Or.inl h
  · simp only [hcl] at h
    rcases List.mem_append.mp h with hin | hnew
    · exact Or.inl hin
    · rcases List.mem_singleton.mp hnew with rfl
      exact Or.inr rfl

theorem mem_appendMatched_foldl (now : Nat) (msgs : List ParsedMessage)
    (logs : List LogEvent) (e : LogEvent)
    (h : e ∈ msgs.foldl (appendMatched now) logs) :
    e ∈ logs ∨ ∃ m ∈ msgs, e.message = trimLine m.text := by
  induction msgs generalizing logs with
  | nil => exact Or.inl h
  | cons m ms ih =>
    rcases ih (appendMatched now logs m) h with h' | ⟨m', hm', he⟩
    · rcases mem_appendMatched now logs m e h' with hin | he
      · exact Or.inl hin
      · exact Or.inr ⟨m, List.mem_cons_self m ms, he⟩
    · exact Or.inr ⟨m', List.mem_cons_of_mem m hm', he⟩

theorem collectLine_length_le (parse : String → List ParsedMessage)
    (now : Nat) (logs : List LogEvent) (line : String)
    (h : logs.length ≤ maxLogEvents) :
    (collectLine parse now logs line).length ≤ maxLogEvents := by
  unfold collectLine
  dsimp only
  split
  · exact h
  · split
    · exact h
    · exact capLogs_length_le _

theorem mem_collectLine (parse : String → List ParsedMessage) (now : Nat)
    (logs : List LogEvent) (line : String) (e : LogEvent)
    (h : e ∈ collectLine parse now logs line) :
    e ∈ logs ∨ ∃ m ∈ parse (trimSpace line), e.message = trimLine m.text := by
  unfold collectLine at h
  dsimp only at h
  split at h
  · exact Or.inl h
  · split at h
    · exact Or.inl h
    · exact mem_appendMatched_foldl now _ logs e (mem_capLogs _ e h)

theorem collectLogs_length_le (parse : String → List ParsedMessage)
    (now : Nat) (logs : List LogEvent) (lines : List String)
    (h : logs.length ≤ maxLogEvents) :
    (collectLogs parse now logs lines).length ≤ maxLogEvents := by
  induction lines generalizing logs with
  | nil => exact h
  | cons l ls ih => exact ih _ (collectLine_length_le parse now logs l h)

theorem mem_collectLogs (parse : String → List ParsedMessage) (now : Nat)
    (logs : List LogEvent) (lines : List String) (e : LogEvent)
    (h : e ∈ collectLogs parse now logs lines) :
    e ∈ logs ∨ ∃ l ∈ lines, ∃ m ∈ parse (trimSpace l),
      e.message = trimLine m.text := by
  induction lines generalizing logs with
  | nil => exact Or.inl h
  | cons l ls ih =>
    rcases ih _ h with h' | ⟨l', hl', m, hm, he⟩
    · rcases mem_collectLine parse now logs l e h' with hin | ⟨m, hm, he⟩
      · exact Or.inl hin
      · exact Or.inr ⟨l, List.mem_cons_self l ls, m, hm, he⟩
    · exact Or.inr ⟨l', List.mem_cons_of_mem l hl', m, hm, he⟩

/-! ## Claim theorems -/

/-- C1: the partition rule claims index `i` is assigned Copilot whenever
`claudeWorkers + codexWorkers ≤ i < claudeWorkers + codexWorkers +
copilotWorkers`.  The code's third bound omits `codexWorkers`, so with
`claudeWorkers = 0`, `codexWorkers = 1`, `copilotWorkers = 1`,
`geminiWorkers = 0` the worker at index 1 — which the rule assigns to
Copilot — is assigned Gemini, and no index at all is assigned Copilot. -/
theorem c1_agentTypeForIndex_misses_copilot :
    agentTypeForIndex ⟨0, 1, 1, 0⟩ 1 = AgentType.gemini ∧
    ∀ i : Nat, agentTypeForIndex ⟨0, 1, 1, 0⟩ i ≠ AgentType.copilot := by
  refine ⟨by decide, ?_⟩
  intro i
  by_cases h : i < 1 <;> simp [agentTypeForIndex, h]

/-- C2 counterexample: the internal runtime's `emit` sends `AgentAdded` with
the same non-blocking `select`/`default` as every other event, so on a full
channel (capacity 1, one buffered event) the `AgentAdded` event is dropped;
and the agentrunner runtime's `emit` sends `AgentLine` with a blocking send,
not a non-blocking one. -/
theorem c2_send_discipline_counterexample :
    internalEmitMode EventTag.agentAdded = SendMode.nonBlocking ∧
    emitInternal 1 [EventTag.agentLine] EventTag.agentAdded =
      [EventTag.agentLine] ∧
    agentrunnerEmitMode EventTag.agentLine = SendMode.blocking := by decide

/-- C2 (amended): neither runtime implements the claimed mixed discipline.
The internal runtime's `emit` uses the non-blocking send for every event,
`AgentAdded` included, appending to the channel buffer when there is room
and dropping the event otherwise; the agentrunner runtime's `emit` uses the
blocking send for every event, so no event is dropped on a full channel;
the orchestrator's notifications use the non-blocking send. -/
theorem c2_send_discipline (ev : EventTag) (cap : Nat) (buf : List EventTag) :
    internalEmitMode ev = SendMode.nonBlocking ∧
    agentrunnerEmitMode ev = SendMode.blocking ∧
    orchestratorEmitMode ev = SendMode.nonBlocking ∧
    (buf.length < cap → emitInternal cap buf ev = buf ++ [ev]) ∧
    (cap ≤ buf.length → emitInternal cap buf ev = buf) ∧
    emitAgentrunner buf ev = buf ++ [ev] := by
  refine ⟨rfl, rfl, rfl, fun h => ?_, fun h => ?_, rfl⟩
  · simp [emitInternal, h]
  · simp [emitInternal, Nat.not_lt.mpr h]

/-- C2 witness: the amended theorem instantiated at a channel with room. -/
theorem c2_send_discipline_witness :
    emitInternal 2 [EventTag.agentLine] EventTag.agentAdded =
      [EventTag.agentLine, EventTag.agentAdded] :=
  (c2_send_discipline EventTag.agentAdded 2 [EventTag.agentLine]).2.2.2.1
    (by decide)

/-- C3 counterexample: in `internal/agents/agent.go`, `Start` launches the
tail goroutine (the producer of `AgentLine`) before it publishes
`AgentAdded`, so the claimed program order does not hold there. -/
theorem c3_added_before_tail_counterexample :
    internalStartSteps.indexOf StartStep.startTail <
      internalStartSteps.indexOf StartStep.emitAdded := by decide

/-- C3 (amended): the agentrunner `Start` publishes `AgentAdded` before it
starts the tail routine, so there `AgentAdded` precedes every `AgentLine`
of the same agent; the internal `Start` instead starts the tail routine
before publishing `AgentAdded`, so the ordering guarantee holds only for
the agentrunner runtime. -/
theorem c3_added_before_tail :
    agentrunnerStartSteps.indexOf StartStep.emitAdded <
      agentrunnerStartSteps.indexOf StartStep.startTail ∧
    internalStartSteps.indexOf StartStep.startTail <
      internalStartSteps.indexOf StartStep.emitAdded := by decide

/-- C4: from the initial state the agentrunner Codex parser maps the
Scenario B sequence to DO [exec], DO writing file, SAY [thinking],
SEE stdout: done; while `doMode` holds, any non-blank line that is neither
tag produces a single DO message with the cleaned line regardless of its
prefix classification (and leaves `doMode` set); and a line trimming to
`thinking` resets `doMode` to false from either state while emitting
SAY [thinking]. -/
theorem c4_codex_stateful (line tline : String)
    (hblank : trimSpace line ≠ "")
    (hthink : trimSpace (stripANSI line) ≠ "thinking")
    (hexec : trimSpace (stripANSI line) ≠ "exec")
    (htblank : trimSpace tline ≠ "")
    (ht : trimSpace (stripANSI tline) = "thinking") :
    codexRunFrom false ["exec", "writing file", "thinking", "stdout: done"] =
      [⟨.act, "[exec]"⟩, ⟨.act, "writing file"⟩, ⟨.say, "[thinking]"⟩,
       ⟨.see, "stdout: done"⟩] ∧
    (codexParse true line).2 = [⟨.act, stripANSI line⟩] ∧
    (codexParse true line).1 = true ∧
    ∀ b : Bool, codexParse b tline = (false, [⟨.say, "[thinking]"⟩]) := by
  refine ⟨by decide, ?_, ?_, ?_⟩
  · simp [codexParse, hblank, hthink, hexec]
  · simp [codexParse, hblank, hthink, hexec]
  · intro b
    simp [codexParse, htblank, ht]

/-- C4 witness: the stateful-carry part instantiated at the Scenario B line
`writing file` with `thinking` as the resetting line. -/
theorem c4_codex_stateful_witness :
    (codexParse true "writing file").2 = [⟨.act, "writing file"⟩] :=
  (c4_codex_stateful "writing file" "thinking" (by decide) (by decide)
    (by decide) (by decide) (by decide)).2.1

/-- C5 counterexample: the first Claude parser in `internal/agents/cli.go`
does not return "no messages" on valid JSON of an unrecognized type — on
the decoded line with type `system` it falls through to a single SAY with
the raw line. -/
theorem c5_claude_unknown_type_counterexample :
    claudeParseI "\x7b\"type\":\"system\"\x7d"
        (some [("type", Jval.str "system")]) ≠ [] ∧
    claudeParseI "\x7b\"type\":\"system\"\x7d"
        (some [("type", Jval.str "system")]) =
      [⟨.say, "\x7b\"type\":\"system\"\x7d"⟩] := by decide

/-- C5 (amended): the agentrunner Claude parser returns no messages on a
non-blank valid-JSON line whose type is none of assistant, user, result,
and a single SAY with the raw line on a non-blank line that fails to
decode; the first Claude parser in `internal/agents/cli.go` also yields the
SAY fallback on a decode failure, but on an unrecognized-type document it
returns a single SAY with the raw line instead of no messages. -/
theorem c5_claude_fallback (line : String) (r : List (String × Jval))
    (hblank : trimSpace line ≠ "")
    (hassistant : jGetStr r "type" ≠ "assistant")
    (huser : jGetStr r "type" ≠ "user")
    (hresult : jGetStr r "type" ≠ "result") :
    claudeParseA line (some r) = [] ∧
    claudeParseA line none = [⟨.say, line⟩] ∧
    claudeParseI line none = [⟨.say, line⟩] ∧
    claudeParseI line (some r) = [⟨.say, line⟩] := by
  refine ⟨?_, ?_, ?_, ?_⟩
  · simp [claudeParseA, hblank, hassistant, huser, hresult]
  · simp [claudeParseA, hblank]
  · by_cases hpre : goHasPrefix (trimSpace line) "\x7b" <;>
      simp [claudeParseI, hblank, hpre]
  · by_cases hpre : goHasPrefix (trimSpace line) "\x7b" <;>
      simp [claudeParseI, hblank, hpre, hassistant, huser, hresult]

/-- C5 witness: the amended theorem instantiated at a decoded document of
the unrecognized type `init`. -/
theorem c5_claude_fallback_witness :
    claudeParseA "\x7b\"type\":\"init\"\x7d"
      (some [("type", Jval.str "init")]) = [] :=
  (c5_claude_fallback "\x7b\"type\":\"init\"\x7d" [("type", Jval.str "init")]
    (by decide) (by decide) (by decide) (by decide)).1

/-- C6: the agentrunner Claude parser maps the Scenario A line (with its
decoded document) to exactly SAY Reading config followed by DO with the
command prefixed by a dollar sign; and in general a tool_use named Bash
whose input carries a string command is summarized as that command behind
the dollar-space prefix. -/
theorem c6_claude_assistant_tool (input : List (String × Jval)) (cmd : String)
    (hcmd : jGet input "command" = some (Jval.str cmd)) :
    claudeParseA scenarioALine (some scenarioARoot) =
      [⟨.say, "Reading config"⟩, ⟨.act, "$ ls -la"⟩] ∧
    summarizeClaudeToolA "Bash" input = "$ " ++ cmd := by
  refine ⟨by decide, ?_⟩
  unfold summarizeClaudeToolA
  rw [hcmd]
  rfl

/-- C6 witness: the summarization part instantiated at the Scenario A
input object. -/
theorem c6_claude_assistant_tool_witness :
    summarizeClaudeToolA "Bash" [("command", Jval.str "ls -la")] =
      "$ " ++ "ls -la" :=
  (c6_claude_assistant_tool [("command", Jval.str "ls -la")] "ls -la" rfl).2

/-- C7 counterexample: with an empty model the Copilot BuildArgs (both
copies) and the first internal Gemini BuildArgs still pass a `--model`
flag, substituting their defaults. -/
theorem c7_model_flag_counterexample :
    "--model" ∈ copilotBuildArgs "fix the bug" "" ∧
    "--model" ∈ geminiBuildArgsI "fix the bug" "" ∧
    copilotBuildArgs "fix the bug" "" =
      ["-p", "fix the bug", "--allow-all-tools", "--allow-all-paths",
       "--stream", "on", "--model", "gpt-5"] := by decide

/-- C7 (amended): the Claude and Codex BuildArgs, and the agentrunner
Gemini BuildArgs, append `--model` followed by the model exactly when the
model is non-empty and pass no `--model` flag otherwise (for the vendors
that place the prompt in argv this needs the prompt itself not to be the
literal `--model`); the Copilot BuildArgs of both packages and the first
internal Gemini BuildArgs instead always pass `--model`, substituting the
defaults `gpt-5` and `gemini-2.0-flash-exp` when the model is empty. -/
theorem c7_model_flag (prompt model : String)
    (hm : model ≠ "") (hp : prompt ≠ "--model") :
    codexBuildArgs prompt model =
      ["exec", prompt, "--skip-git-repo-check",
       "--dangerously-bypass-approvals-and-sandbox", "--model", model] ∧
    "--model" ∉ codexBuildArgs prompt "" ∧
    claudeBuildArgs prompt model =
      ["-p", "--dangerously-skip-permissions", "--tools", "default",
       "--output-format", "stream-json", "--verbose", "--model", model] ∧
    "--model" ∉ claudeBuildArgs prompt "" ∧
    geminiBuildArgsA prompt model =
      [prompt, "--yolo", "--output-format", "stream-json", "--model",
       model] ∧
    "--model" ∉ geminiBuildArgsA prompt "" ∧
    copilotBuildArgs prompt "" =
      ["-p", prompt, "--allow-all-tools", "--allow-all-paths", "--stream",
       "on", "--model", "gpt-5"] ∧
    copilotBuildArgs prompt model =
      ["-p", prompt, "--allow-all-tools", "--allow-all-paths", "--stream",
       "on", "--model", model] ∧
    geminiBuildArgsI prompt "" =
      [prompt, "--yolo", "--output-format", "stream-json", "--model",
       "gemini-2.0-flash-exp"] ∧
    geminiBuildArgsI prompt model =
      [prompt, "--yolo", "--output-format", "stream-json", "--model",
       model] := by
  refine ⟨?_, ?_, ?_, ?_, ?_, ?_, ?_, ?_, ?_, ?_⟩
  · simp [codexBuildArgs, hm]
  · simp [codexBuildArgs, Ne.symm hp]
  · simp [claudeBuildArgs, hm]
  · simp [claudeBuildArgs]
  · simp [geminiBuildArgsA, hm]
  · simp [geminiBuildArgsA, Ne.symm hp]
  · simp [copilotBuildArgs]
  · simp [copilotBuildArgs, hm]
  · simp [geminiBuildArgsI]
  · simp [geminiBuildArgsI, hm]

/-- C7 witness: the amended theorem instantiated at a concrete prompt and
model. -/
theorem c7_model_flag_witness :
    copilotBuildArgs "fix" "" = ["-p", "fix", "--allow-all-tools",
      "--allow-all-paths", "--stream", "on", "--model", "gpt-5"] :=
  (c7_model_flag "fix" "opus" (by decide) (by decide)).2.2.2.2.2.2.1

/-- C8: for any vendor parser, after a collector log-scan cycle over any
new log lines the per-worker history holds at most 50 events — hence so
does the `recent` list copied into the snapshot — and every stored event's
message is at most 500 characters and is either carried over from a
well-formed previous history or equals the 500-character truncation of
some parsed message's text, of which it is a prefix. -/
theorem c8_collector_bounds (parse : String → List ParsedMessage) (now : Nat)
    (logs : List LogEvent) (lines : List String)
    (hlen : logs.length ≤ maxLogEvents)
    (hmsg : ∀ e ∈ logs, e.message.length ≤ 500) :
    (collectLogs parse now logs lines).length ≤ maxLogEvents ∧
    (buildLogSummary (collectLogs parse now logs lines)).recent.length ≤
      maxLogEvents ∧
    ∀ e ∈ collectLogs parse now logs lines,
      e.message.length ≤ 500 ∧
      (e ∈ logs ∨ ∃ l ∈ lines, ∃ m ∈ parse (trimSpace l),
        e.message = trimLine m.text ∧ e.message.data <+: m.text.data) := by
  have hl := collectLogs_length_le parse now logs lines hlen
  refine ⟨hl, hl, ?_⟩
  intro e he
  rcases mem_collectLogs parse now logs lines e he with hin | ⟨l, hlin, m, hm, hmsgEq⟩
  · exact ⟨hmsg e hin, Or.inl hin⟩
  · refine ⟨?_, Or.inr ⟨l, hlin, m, hm, hmsgEq, ?_⟩⟩
    · rw [hmsgEq]
      exact trimLine_length_le m.text
    · rw [hmsgEq]
      exact trimLine_isPre m.text

/-- C8 witness: the bound instantiated at the Copilot parser, an empty
history and one log line. -/
theorem c8_collector_bounds_witness :
    (collectLogs copilotParse 0 [] ["All tests passed"]).length ≤
      maxLogEvents :=
  (c8_collector_bounds copilotParse 0 [] ["All tests passed"]
    (by decide) (by intro e he; cases he)).1

/-- C9: under the collector's classification — pass regex tried before fail
regex, both case-insensitive and word-bounded — an info line reporting all
tests passed yields a pass event and a panic line yields a fail event,
each carrying the (un-truncated, short) message text. -/
theorem c9_collector_regex_scenarios :
    classifyLogKind "[info] all tests passed (120/120)" = some "pass" ∧
    classifyLogKind "panic: runtime error: index out of range" =
      some "fail" ∧
    appendMatched 7 [] ⟨.say, "[info] all tests passed (120/120)"⟩ =
      [⟨7, "pass", "[info] all tests passed (120/120)"⟩] ∧
    appendMatched 7 [] ⟨.say, "panic: runtime error: index out of range"⟩ =
      [⟨7, "fail", "panic: runtime error: index out of range"⟩] := by decide

/-- C10 counterexample: the two Codex parsers disagree already on the
single line with the dollar-space prefix — the first (stateless,
`internal/agents/cli.go`) yields SAY with the raw line, the agentrunner one
classifies it DO. -/
theorem c10_codex_equivalence_counterexample :
    codexRunV1 ["$ ls"] = [⟨.say, "$ ls"⟩] ∧
    codexRunFrom false ["$ ls"] = [⟨.act, "$ ls"⟩] ∧
    codexRunV1 ["$ ls"] ≠ codexRunFrom false ["$ ls"] := by decide

/-- C10 (amended): the two Codex parsers are not equivalent in general;
they do return the same messages, from any agentrunner `doMode` state, on
every sequence of escape-free lines each of which trims to blank,
`thinking`, or `exec` (the tag lines on which both emit the same fixed
messages). -/
theorem c10_codex_equivalence_on_tag_lines (lines : List String)
    (h : ∀ l ∈ lines, l.data.contains '\x1b' = false ∧
      (trimSpace l = "" ∨ trimSpace l = "thinking" ∨ trimSpace l = "exec")) :
    ∀ b : Bool, codexRunV1 lines = codexRunFrom b lines := by
  induction lines with
  | nil => intro b; rfl
  | cons l ls ih =>
    intro b
    have hl := h l (List.mem_cons_self l ls)
    have hls := fun x hx => h x (List.mem_cons_of_mem l hx)
    have hstrip : stripANSI l = l := by
      unfold stripANSI
      rw [hl.1]
      rfl
    rcases hl.2 with hb | ht | he
    · simpa [codexRunV1, codexParseV1, codexRunFrom, codexParse, hb]
        using ih hls b
    · simpa [codexRunV1, codexParseV1, codexRunFrom, codexParse, ht, hstrip]
        using ih hls false
    · simpa [codexRunV1, codexParseV1, codexRunFrom, codexParse, he, hstrip]
        using ih hls true

/-- C10 witness: the agreement instantiated at the two tag lines, starting
the stateful parser with `doMode` set. -/
theorem c10_codex_equivalence_on_tag_lines_witness :
    codexRunV1 ["exec", "thinking"] = codexRunFrom true ["exec", "thinking"] :=
  c10_codex_equivalence_on_tag_lines ["exec", "thinking"] (by decide) true

end SwarmGo
